import Mathlib

/-!
Shallow embedding of the tracecube ETL pipeline from src/etl/run_etl.py and
proofs about its acquisition and normalization behavior: the cache-backed
download step, archive candidate selection, the concept vocabulary filter,
fact normalization, per-source fault isolation in the main loop, and the
output materialization of the aggregate table.

External collaborators (the HTTP client, the hash function, the XBRL
parser) are modelled as explicit function parameters or as data carried by
the embedded fact records, following the narrow interface the pipeline
reads through.
-/

namespace RunEtl

/-- One output row: an ordered association list from column name to
optional cell value, mirroring a Python dict handed to the pandas
DataFrame constructor. Normalized rows carry all eight keys; error rows
carry three. -/
abbrev Row := List (String × Option String)

/-- Exact-match concept vocabulary, the FACT_LOCALNAMES list of
run_etl.py, passed to extract_facts as wanted_locals by main. -/
def FACT_LOCALNAMES : List String :=
  ["Revenue",
   "SalesRevenueNet",
   "RevenueFromContractsWithCustomersExcludingAssessedTax",
   "OperatingProfitLoss",
   "ProfitLoss",
   "GreenhouseGasScope1Emissions",
   "GreenhouseGasScope2EmissionsLocationBased",
   "GreenhouseGasScope2EmissionsMarketBased"]

/-- Secondary alias set, the FACT_LOCALNAMES_EXTRA Python set of
run_etl.py; only membership is consulted, so a list models it. -/
def FACT_LOCALNAMES_EXTRA : List String :=
  ["Revenues", "SalesRevenueNet",
   "RevenueFromContractsWithCustomersExcludingAssessedTax",
   "ProfitLoss", "ProfitLossFromOperatingActivities",
   "OperatingIncomeLoss", "GrossProfit"]

/-- Domain keyword fallback tuple, FACT_KEYWORDS of run_etl.py. -/
def FACT_KEYWORDS : List String :=
  ["revenue", "revenu", "sales", "profit", "loss"]

/-- Containment of one character list inside another as a contiguous run,
the semantics of the Python substring membership test. -/
def hasSubstr (needle : List Char) : List Char → Bool
  | [] => needle.isEmpty
  | c :: rest => needle.isPrefixOf (c :: rest) || hasSubstr needle rest

/-- The Python test k in s on strings, on the run of characters. -/
def strContains (hay needle : String) : Bool :=
  hasSubstr needle.toList hay.toList

/-- The Python lower call applied to a concept local name, as the basic
latin case mapping over the character list. -/
def pyLower (s : String) : String :=
  String.mk (s.toList.map Char.toLower)

/-- The keep predicate of extract_facts, lines 151 to 155 of run_etl.py:
the local name is in wanted_locals, or in FACT_LOCALNAMES_EXTRA, or its
lower-cased form contains one of the FACT_KEYWORDS. -/
def keepFact (wanted : List String) (localName : String) : Bool :=
  wanted.contains localName ||
  FACT_LOCALNAMES_EXTRA.contains localName ||
  FACT_KEYWORDS.any (fun k => strContains (pyLower localName) k)

/-- Concept qualified name of a fact; the pipeline reads only the local
name component. -/
structure ConceptQName where
  localName : String
deriving DecidableEq

/-- Reporting context of a fact. The field entityIdentifier models the
structured access ctx.entityIdentifier, read at index 1 as the pair
scheme and value; the value none models that access raising, which the
code catches, falling back to the flat accessor entityIdentifierValue,
itself none when absent (the getattr default). Period endpoints are kept
as their ISO-8601 renderings, the isoformat output the code stores. -/
structure FactContext where
  entityIdentifier : Option (String × String)
  entityIdentifierValue : Option String
  startDatetime : Option String
  endDatetime : Option String
deriving DecidableEq

/-- Unit structure of a fact: the numerator and denominator measure
identifier lists, the two components of fact.unit.measures. -/
structure UnitMeasures where
  numerator : List String
  denominator : List String
deriving DecidableEq

/-- One fact of the loaded fact graph, read through the narrow interface
of run_etl.py: optional concept, optional context, optional unit, value,
optional decimals, and the nil flag. -/
structure XFact where
  concept : Option ConceptQName
  context : Option FactContext
  unit : Option UnitMeasures
  value : String
  decimals : Option String
  isNil : Bool
deriving DecidableEq

/-- The Python expression applying join with a star separator to a string
u, as written per measure in _format_unit: it interleaves a star between
every two characters of u. -/
def charJoinStar (s : String) : String :=
  String.intercalate "*" (s.toList.map fun c => String.mk [c])

/-- Embedding of _format_unit, lines 129 to 140 of run_etl.py. A missing
unit yields none; otherwise each numerator and denominator measure is
rendered by charJoinStar, the rendered numerators are joined with a dot,
the rendered denominators are joined with a dot and prefixed by a slash,
and the parts are concatenated; empty parts on both sides yield none. -/
def format_unit (unit : Option UnitMeasures) : Option String :=
  match unit with
  | none => none
  | some m =>
    let num := m.numerator.map charJoinStar
    let den := m.denominator.map charJoinStar
    let parts :=
      (if num.isEmpty then [] else [String.intercalate "." num]) ++
      (if den.isEmpty then [] else ["/" ++ String.intercalate "." den])
    if parts.isEmpty then none else some (String.join parts)

/-- Entity extraction of extract_facts, lines 160 to 166: with no context
the entity stays none; otherwise the structured pair is preferred and the
flat accessor is the fallback when the structured access raises. -/
def entityOf (ctx : Option FactContext) : Option String :=
  match ctx with
  | none => none
  | some c =>
    match c.entityIdentifier with
    | some sv => some sv.2
    | none => c.entityIdentifierValue

/-- The normalized output row built for one kept fact, lines 171 to 182
of run_etl.py. -/
def normRow (sourceDoc : String) (f : XFact) (localName : String) : Row :=
  [("concept_local", some localName),
   ("entity_lei", entityOf f.context),
   ("period_start", f.context.bind FactContext.startDatetime),
   ("period_end", f.context.bind FactContext.endDatetime),
   ("value", some f.value),
   ("unit", format_unit f.unit),
   ("decimals", f.decimals),
   ("source_doc", some sourceDoc)]

/-- Embedding of extract_facts, lines 143 to 183: facts with no concept
are skipped, facts failing the keep predicate are skipped, kept facts are
projected to normalized rows in order. -/
def extract_facts (facts : List XFact) (sourceDoc : String)
    (wanted : List String) : List Row :=
  facts.filterMap fun f =>
    match f.concept with
    | none => none
    | some c =>
      if keepFact wanted c.localName then some (normRow sourceDoc f c.localName)
      else none

/-- The Error Record appended by main when processing of one source
raises, line 210 of run_etl.py. -/
def errorRow (url msg : String) : Row :=
  [("concept_local", some "__ERROR__"),
   ("source_doc", some url),
   ("value", some msg)]

/-- Outcome of one HTTP GET issued by download. The httpError case models
a non-success status, raised by raise_for_status before the destination
file is opened, so nothing is written; the stream case carries the chunks
delivered and whether the body completed, an incomplete stream modelling
a transport fault after writing has begun. -/
inductive NetResponse where
  | httpError (msg : String)
  | stream (chunks : List String) (completed : Bool)
deriving DecidableEq

/-- The raw cache directory as a map from derived filename to the file
content on disk. -/
abbrev CacheDir := List (String × String)

/-- Splitting of a character list at every slash, the Python split call
on the URL string; the result always has at least one segment. -/
def splitOnSlash (cs : List Char) : List (List Char) :=
  cs.foldr (fun c acc =>
    match acc with
    | [] => [[]]
    | seg :: rest => if c = '/' then [] :: seg :: rest else (c :: seg) :: rest) [[]]

/-- Filename derivation of download, line 48: the last URL path segment,
or the hash-based fallback name when that segment is empty. The hash is
the external sha1 hex digest, passed as a parameter. -/
def derivedName (hashHex : String → String) (url : String) : String :=
  let fn := String.mk (((splitOnSlash url.toList).getLast?).getD [])
  if fn = "" then "file_" ++ hashHex url ++ ".xbrl" else fn

/-- Embedding of download, lines 46 to 64 of run_etl.py: the result is the
returned path (as the derived filename), the cache directory after the
call, and the number of network requests performed. A cache hit returns
at once with no request. The code streams straight into the destination
path, so a stream that faults mid-body leaves the chunks received so far
on disk under the final name while the call raises. -/
def download (hashHex : String → String) (net : String → NetResponse)
    (cache : CacheDir) (url : String) :
    Except String String × CacheDir × Nat :=
  let fn := derivedName hashHex url
  match cache.lookup fn with
  | some _ => (.ok fn, cache, 0)
  | none =>
    match net url with
    | .httpError msg => (.error msg, cache, 1)
    | .stream chunks completed =>
      if completed then (.ok fn, (fn, String.join chunks) :: cache, 1)
      else (.error "transport fault", (fn, String.join chunks) :: cache, 1)

/-- One iteration of the per-source loop of main, lines 197 to 211,
threading the shared on-disk cache through the fetch step. The first step
is download against the current cache; the later steps resolve, load and
normalize are abstracted as one function from the bytes now cached under
the derived filename to either the normalized rows of the source or the
message of the raised exception (within one run they are deterministic in
those bytes: the archive is re-extracted and the instance re-resolved
from them every time). Any failure yields the single error row of line
210; the cache keeps whatever the fetch left in it. -/
def sourceBlock (hashHex : String → String) (net : String → NetResponse)
    (rest : String → Except String (List Row)) (cache : CacheDir)
    (u : String) : List Row × CacheDir :=
  match download hashHex net cache u with
  | (.error e, cache2, _) => ([errorRow u e], cache2)
  | (.ok fn, cache2, _) =>
    match rest ((cache2.lookup fn).getD "") with
    | .ok rows => (rows, cache2)
    | .error e => ([errorRow u e], cache2)

/-- The whole per-source loop of main over the declared URLs, one block
of rows per source in order, starting from the given cache directory;
the aggregate all_rows list of the code is the concatenation of the
blocks. -/
def runCachedAux (hashHex : String → String) (net : String → NetResponse)
    (rest : String → Except String (List Row)) :
    List String → CacheDir → List (List Row)
  | [], _ => []
  | u :: tl, cache =>
    (sourceBlock hashHex net rest cache u).1 ::
      runCachedAux hashHex net rest tl (sourceBlock hashHex net rest cache u).2

/-- One candidate instance path inside the extraction directory, kept as
its components, mirroring the parts attribute of a pathlib path; the path
string joins the components with the separator. -/
structure Cand where
  parts : List String
deriving DecidableEq

/-- The string rendering of a candidate path. -/
def pathStr (c : Cand) : String := String.intercalate "/" c.parts

/-- The sort key used on candidates by path_to_instance, lines 91 and
102: zero when some component equals reports (such paths first), else
one; then the length of the path string. -/
def sortKey (c : Cand) : Nat × Nat :=
  ((if c.parts.contains "reports" then 0 else 1), (pathStr c).length)

/-- The candidate ordering: lexicographic comparison of the sort keys. -/
def candLe (a b : Cand) : Prop :=
  (sortKey a).1 < (sortKey b).1 ∨
  ((sortKey a).1 = (sortKey b).1 ∧ (sortKey a).2 ≤ (sortKey b).2)

instance : DecidableRel candLe := fun a b => by
  unfold candLe; infer_instance

instance : IsTrans Cand candLe where
  trans a b c hab hbc := by
    rcases hab with h1 | ⟨h1, h2⟩ <;> rcases hbc with h3 | ⟨h3, h4⟩ <;>
      unfold candLe <;> omega

instance : IsTotal Cand candLe where
  total a b := by
    unfold candLe
    rcases Nat.lt_trichotomy (sortKey a).1 (sortKey b).1 with h | h | h
    · exact Or.inl (Or.inl h)
    · rcases Nat.le_total (sortKey a).2 (sortKey b).2 with h2 | h2
      · exact Or.inl (Or.inr ⟨h, h2⟩)
      · exact Or.inr (Or.inr ⟨h.symm, h2⟩)
    · exact Or.inr (Or.inl h)

/-- Candidate selection of path_to_instance, lines 102 to 103: stable
sort of the candidates by the key and take the first; the Python sort is
stable, modelled here by insertion sort. -/
def selectInstance (cands : List Cand) : Option Cand :=
  (List.insertionSort candLe cands).head?

/-- Ordered union of the keys of all rows, first appearance first: the
column list the pandas DataFrame constructor derives from a list of
dicts. -/
def dfColumns (rows : List Row) : List String :=
  rows.foldl (fun cols row =>
    row.foldl (fun cs kv => if cs.contains kv.1 then cs else cs ++ [kv.1]) cols) []

/-- The eight declared output columns, lines 228 to 237 of run_etl.py. -/
def declaredColumns : List String :=
  ["concept_local", "entity_lei", "period_start", "period_end",
   "value", "unit", "decimals", "source_doc"]

/-- Header line of the delimited text serialization. -/
def csvHeader (cols : List String) : String :=
  String.intercalate "," cols ++ "\n"

/-- Cell rendered for one column of one row: the stored value, or the
empty rendering used for missing and null cells. -/
def csvCell (row : Row) (col : String) : String :=
  match row.lookup col with
  | some (some v) => v
  | _ => ""

/-- Data lines of the delimited text serialization. -/
def csvBody (cols : List String) (rows : List Row) : String :=
  String.join (rows.map fun row =>
    String.intercalate "," (cols.map (csvCell row)) ++ "\n")

/-- Text written to the delimited output file facts_latest.csv, line 223
of run_etl.py: the empty string when the frame is empty, else the header
line followed by the data lines. -/
def csvText (rows : List Row) : String :=
  if rows.isEmpty then ""
  else csvHeader (dfColumns rows) ++ csvBody (dfColumns rows) rows

/-- Column list of the frame written to the parquet and spreadsheet
outputs, lines 225 to 243: an empty frame is replaced by one carrying the
declared columns before those writes. -/
def tableColumns (rows : List Row) : List String :=
  if rows.isEmpty then declaredColumns else dfColumns rows

theorem hasSubstr_iff (needle hay : List Char) :
    hasSubstr needle hay = true ↔ needle <:+: hay := by
  induction hay with
  | nil =>
    simp [hasSubstr, List.isEmpty_iff, List.infix_nil]
  | cons c rest ih =>
    simp [hasSubstr, List.infix_cons_iff, ih, List.isPrefixOf_iff_prefix,
      Bool.or_eq_true]

/-- C6: a fact passes the filter iff its concept local name is in the
exact-match vocabulary, or in the secondary alias set, or its lower-cased
local name contains one of the domain keywords as a contiguous run; and
the three vocabulary examples evaluate as the claim states. -/
theorem keepFact_spec :
    (∀ l : String, keepFact FACT_LOCALNAMES l = true ↔
      (l ∈ FACT_LOCALNAMES ∨ l ∈ FACT_LOCALNAMES_EXTRA ∨
        ∃ k ∈ FACT_KEYWORDS, k.toList <:+: (pyLower l).toList)) ∧
    keepFact FACT_LOCALNAMES "Revenue" = true ∧
    keepFact FACT_LOCALNAMES "CompanySpecificRevenueRecognized" = true ∧
    keepFact FACT_LOCALNAMES "InventoryTurnover" = false := by
  refine ⟨fun l => ?_, by decide, by decide, by decide⟩
  simp [keepFact, strContains, Bool.or_eq_true, List.any_eq_true,
    hasSubstr_iff, List.contains, List.elem_iff, or_assoc]

/-- C3 as stated fails on the code: format_unit renders each measure by
interleaving a star between its characters, so numerator USD with empty
denominator yields U*S*D rather than USD, and USD over shares yields
U*S*D/s*h*a*r*e*s rather than USD/shares; the null-unit part of the claim
does hold. -/
theorem format_unit_star_bug :
    format_unit (some ⟨["USD"], []⟩) = some "U*S*D" ∧
    format_unit (some ⟨["USD"], []⟩) ≠ some "USD" ∧
    format_unit (some ⟨["USD"], ["shares"]⟩) = some "U*S*D/s*h*a*r*e*s" ∧
    format_unit (some ⟨["USD"], ["shares"]⟩) ≠ some "USD/shares" ∧
    format_unit none = none := by
  refine ⟨by decide, by decide, by decide, by decide, rfl⟩

/-- C2 fails on the delimited text form: materializing an empty record
set writes the empty string to the text output, so that file carries no
header line at all, while the frames behind the parquet and spreadsheet
outputs do receive exactly the eight declared columns. -/
theorem emptyRun_csv_missing_header :
    csvText [] = "" ∧
    csvText [] ≠ csvHeader declaredColumns ∧
    tableColumns [] = declaredColumns := by
  refine ⟨rfl, by decide, rfl⟩

/-- C4 fails on the code: a transport fault after one chunk leaves the
partial content readable at the final cache path, and a later fetch of
the same URL returns that path as a success with zero network requests,
even though the remote body is longer than what was stored. -/
theorem download_partial_file_bug :
    download (fun _ => "h") (fun _ => .stream ["PART"] false) [] "http://x/r.zip"
      = (.error "transport fault", [("r.zip", "PART")], 1) ∧
    download (fun _ => "h") (fun _ => .stream ["PART", "REST"] true)
        [("r.zip", "PART")] "http://x/r.zip"
      = (.ok "r.zip", [("r.zip", "PART")], 0) ∧
    ([("r.zip", "PART")] : CacheDir).lookup "r.zip" = some "PART" ∧
    "PART" ≠ String.join ["PART", "REST"] := by
  refine ⟨rfl, rfl, rfl, by decide⟩

/-- C5: a fetch whose derived filename is already cached returns that
path at once with the cache untouched and zero network requests; and
after any successful fetch, a second fetch of the same URL, under any
network behavior, performs zero network requests and returns the same
path with the cache unchanged. -/
theorem download_idempotent (hashHex : String → String)
    (net net2 : String → NetResponse) (cache : CacheDir) (url : String) :
    (∀ c, cache.lookup (derivedName hashHex url) = some c →
      download hashHex net cache url = (.ok (derivedName hashHex url), cache, 0)) ∧
    (∀ p cache1 n, download hashHex net cache url = (.ok p, cache1, n) →
      download hashHex net2 cache1 url = (.ok p, cache1, 0)) := by
  constructor
  · intro c hc
    simp [download, hc]
  · intro p cache1 n h1
    rcases hml : cache.lookup (derivedName hashHex url) with _ | c
    · rcases hnet : net url with msg | ⟨chunks, completed⟩
      · simp [download, hml, hnet] at h1
      · cases completed
        · simp [download, hml, hnet] at h1
        · simp [download, hml, hnet] at h1
          rcases h1 with ⟨hp, hcache, _⟩
          subst hp; subst hcache
          simp [download, List.lookup]
    · simp [download, hml] at h1
      rcases h1 with ⟨hp, hcache, _⟩
      subst hp; subst hcache
      simp [download, hml]

/-- Witness for the idempotence theorem at a concrete URL, cache and
network behavior: after one successful download of one two-byte body, the
second call returns the same filename, the unchanged cache and zero
network requests. -/
theorem download_idempotent_witness :
    download (fun _ => "h") (fun _ => .stream ["AB"] true)
        [("a.txt", "AB")] "http://x/a.txt"
      = (.ok "a.txt", [("a.txt", "AB")], 0) :=
  (download_idempotent (fun _ => "h") (fun _ => .stream ["AB"] true)
    (fun _ => .stream ["AB"] true) [] "http://x/a.txt").2
    "a.txt" [("a.txt", "AB")] 1 rfl

/-- C1 as frozen is refuted on the code: two declared sources sharing the
derived cache filename report.zip couple through the raw cache, so the
bytes the second source normalizes depend on whether the first source
failed. In the run where the first source fails at fetch, the second
source downloads and normalizes its own bytes BBB; had the first source
not failed, the second source would hit the cache at the shared filename
and normalize the bytes AAA of the first source instead, so the records
of the second, non-failing source differ between the two runs. The
failing source does contribute exactly one error row in both worlds
where it fails. -/
theorem runSources_shared_cache_counterexample :
    runCachedAux (fun _ => "h")
        (fun v => if v = "http://a.com/report.zip" then .httpError "503"
          else .stream ["BBB"] true)
        (fun content => .ok [[("value", some content)]])
        ["http://a.com/report.zip", "http://b.com/report.zip"] []
      = [[errorRow "http://a.com/report.zip" "503"],
         [[("value", some "BBB")]]] ∧
    runCachedAux (fun _ => "h")
        (fun v => if v = "http://a.com/report.zip" then .stream ["AAA"] true
          else .stream ["BBB"] true)
        (fun content => .ok [[("value", some content)]])
        ["http://a.com/report.zip", "http://b.com/report.zip"] []
      = [[[("value", some "AAA")]],
         [[("value", some "AAA")]]] ∧
    ([[("value", some "BBB")]] : List Row) ≠ [[("value", some "AAA")]] := by
  refine ⟨by decide, by decide, by decide⟩

theorem runCachedAux_length (hashHex : String → String)
    (net : String → NetResponse) (rest : String → Except String (List Row)) :
    ∀ (urls : List String) (c : CacheDir),
      (runCachedAux hashHex net rest urls c).length = urls.length
  | [], _ => rfl
  | u :: tl, c => by
    simp [runCachedAux, runCachedAux_length hashHex net rest tl]

theorem sourceBlock_fail (hashHex : String → String)
    (netF : String → NetResponse) (rest : String → Except String (List Row))
    (c : CacheDir) (u e : String)
    (hnone : c.lookup (derivedName hashHex u) = none)
    (hfail : netF u = .httpError e ∨
      (∃ chunks, netF u = .stream chunks true ∧
        rest (String.join chunks) = .error e) ∨
      (∃ chunks, netF u = .stream chunks false ∧ e = "transport fault")) :
    (sourceBlock hashHex netF rest c u).1 = [errorRow u e] := by
  rcases hfail with h | ⟨chunks, h, hr⟩ | ⟨chunks, h, he⟩
  · simp [sourceBlock, download, hnone, h]
  · simp [sourceBlock, download, hnone, h, hr]
  · subst he
    simp [sourceBlock, download, hnone, h]

theorem sourceBlock_cache_writes (hashHex : String → String)
    (net : String → NetResponse) (rest : String → Except String (List Row))
    (c : CacheDir) (u : String) (fn : String)
    (hfn : fn ≠ derivedName hashHex u) :
    ((sourceBlock hashHex net rest c u).2).lookup fn = c.lookup fn := by
  have hb : (fn == derivedName hashHex u) = false := beq_false_of_ne hfn
  rcases hml : c.lookup (derivedName hashHex u) with _ | x
  · rcases hnet : net u with msg | ⟨chunks, completed⟩
    · simp [sourceBlock, download, hml, hnet]
    · cases completed
      · simp [sourceBlock, download, hml, hnet, List.lookup_cons, hb]
      · rcases hr : rest (String.join chunks) with e2 | rows <;>
          simp [sourceBlock, download, hml, hnet, hr, List.lookup_cons, hb]
  · rcases hr : rest x with e2 | rows <;>
      simp [sourceBlock, download, hml, hr]

theorem sourceBlock_agree (hashHex : String → String)
    (netF netS : String → NetResponse) (rest : String → Except String (List Row))
    (c1 c2 : CacheDir) (v : String)
    (hn : netF v = netS v)
    (hv : c1.lookup (derivedName hashHex v) = c2.lookup (derivedName hashHex v)) :
    (sourceBlock hashHex netF rest c1 v).1 = (sourceBlock hashHex netS rest c2 v).1 ∧
    ∀ fn, c1.lookup fn = c2.lookup fn →
      ((sourceBlock hashHex netF rest c1 v).2).lookup fn
        = ((sourceBlock hashHex netS rest c2 v).2).lookup fn := by
  rcases hml : c1.lookup (derivedName hashHex v) with _ | x
  · have hml2 : c2.lookup (derivedName hashHex v) = none := by
      rw [← hv, hml]
    rcases hnet : netS v with msg | ⟨chunks, completed⟩
    · constructor
      · simp [sourceBlock, download, hml, hml2, hn, hnet]
      · intro fn hfn
        simp [sourceBlock, download, hml, hml2, hn, hnet, hfn]
    · cases completed
      · constructor
        · simp [sourceBlock, download, hml, hml2, hn, hnet]
        · intro fn hfn
          simp [sourceBlock, download, hml, hml2, hn, hnet, List.lookup_cons, hfn]
      · rcases hr : rest (String.join chunks) with e2 | rows
        · constructor
          · simp [sourceBlock, download, hml, hml2, hn, hnet, hr]
          · intro fn hfn
            simp [sourceBlock, download, hml, hml2, hn, hnet, hr,
              List.lookup_cons, hfn]
        · constructor
          · simp [sourceBlock, download, hml, hml2, hn, hnet, hr]
          · intro fn hfn
            simp [sourceBlock, download, hml, hml2, hn, hnet, hr,
              List.lookup_cons, hfn]
  · have hml2 : c2.lookup (derivedName hashHex v) = some x := by
      rw [← hv, hml]
    rcases hr : rest x with e2 | rows
    · constructor
      · simp [sourceBlock, download, hml, hml2, hr]
      · intro fn hfn
        simp [sourceBlock, download, hml, hml2, hr, hfn]
    · constructor
      · simp [sourceBlock, download, hml, hml2, hr]
      · intro fn hfn
        simp [sourceBlock, download, hml, hml2, hr, hfn]

theorem runCached_isolation_aux (hashHex : String → String)
    (netF netS : String → NetResponse) (rest : String → Except String (List Row))
    (u e : String)
    (hfail : netF u = .httpError e ∨
      (∃ chunks, netF u = .stream chunks true ∧
        rest (String.join chunks) = .error e) ∨
      (∃ chunks, netF u = .stream chunks false ∧ e = "transport fault"))
    (hagree : ∀ v, v ≠ u → netF v = netS v) :
    ∀ (urls : List String) (c1 c2 : CacheDir),
      (∀ v ∈ urls, derivedName hashHex v = derivedName hashHex u → v = u) →
      (∀ fn, fn ≠ derivedName hashHex u → c1.lookup fn = c2.lookup fn) →
      (c1.lookup (derivedName hashHex u) = none →
        ∀ i : Nat, urls[i]? = some u → (∀ j : Nat, j < i → urls[j]? ≠ some u) →
          (runCachedAux hashHex netF rest urls c1)[i]? = some [errorRow u e]) ∧
      (∀ (i : Nat) (v : String), urls[i]? = some v → v ≠ u →
        (runCachedAux hashHex netF rest urls c1)[i]?
          = (runCachedAux hashHex netS rest urls c2)[i]?) := by
  intro urls
  induction urls with
  | nil =>
    intro c1 c2 _ _
    constructor
    · intro _ i hi _
      simp at hi
    · intro i v hi _
      simp at hi
  | cons w tl ih =>
    intro c1 c2 hnc hcc
    by_cases hw : w = u
    · subst hw
      have hcc2 : ∀ fn, fn ≠ derivedName hashHex w →
          ((sourceBlock hashHex netF rest c1 w).2).lookup fn
            = ((sourceBlock hashHex netS rest c2 w).2).lookup fn := by
        intro fn hfn
        rw [sourceBlock_cache_writes hashHex netF rest c1 w fn hfn,
          sourceBlock_cache_writes hashHex netS rest c2 w fn hfn]
        exact hcc fn hfn
      have ihx := ih (sourceBlock hashHex netF rest c1 w).2
        (sourceBlock hashHex netS rest c2 w).2
        (fun v hv h => hnc v (List.mem_cons_of_mem w hv) h) hcc2
      constructor
      · intro hnone i hi hprev
        cases i with
        | zero =>
          simp only [runCachedAux, List.getElem?_cons_zero, Option.some.injEq]
          exact sourceBlock_fail hashHex netF rest c1 w e hnone hfail
        | succ n =>
          exact absurd (by simp) (hprev 0 (Nat.succ_pos n))
      · intro i v hi hv
        cases i with
        | zero =>
          simp only [List.getElem?_cons_zero, Option.some.injEq] at hi
          exact absurd hi.symm hv
        | succ n =>
          simp only [runCachedAux, List.getElem?_cons_succ] at hi ⊢
          exact ihx.2 n v hi hv
    · have hfn : derivedName hashHex w ≠ derivedName hashHex u :=
        fun h => hw (hnc w (List.mem_cons_self w tl) h)
      have hsb := sourceBlock_agree hashHex netF netS rest c1 c2 w
        (hagree w hw) (hcc _ hfn)
      have hcc2 : ∀ fn, fn ≠ derivedName hashHex u →
          ((sourceBlock hashHex netF rest c1 w).2).lookup fn
            = ((sourceBlock hashHex netS rest c2 w).2).lookup fn :=
        fun fn hfn2 => hsb.2 fn (hcc fn hfn2)
      have ihx := ih (sourceBlock hashHex netF rest c1 w).2
        (sourceBlock hashHex netS rest c2 w).2
        (fun v hv h => hnc v (List.mem_cons_of_mem w hv) h) hcc2
      constructor
      · intro hnone i hi hprev
        cases i with
        | zero =>
          simp only [List.getElem?_cons_zero, Option.some.injEq] at hi
          exact absurd hi hw
        | succ n =>
          have hnone2 : ((sourceBlock hashHex netF rest c1 w).2).lookup
              (derivedName hashHex u) = none := by
            rw [sourceBlock_cache_writes hashHex netF rest c1 w _ hfn.symm]
            exact hnone
          simp only [runCachedAux, List.getElem?_cons_succ] at hi ⊢
          exact ihx.1 hnone2 n hi
            (fun j hj => by
              have := hprev (j + 1) (by omega)
              simpa using this)
      · intro i v hi hv
        cases i with
        | zero =>
          simp only [runCachedAux, List.getElem?_cons_zero, Option.some.injEq]
          exact hsb.1
        | succ n =>
          simp only [runCachedAux, List.getElem?_cons_succ] at hi ⊢
          exact ihx.2 n v hi hv

/-- C1 amended: per-source fault isolation of the main loop, accounting
for the shared basename-keyed cache. In a run starting from a cache that
does not yet hold the derived filename of the failing source u, where u
fails at one of the four steps (non-success response, transport fault
mid-stream, or a resolve, load or normalize failure on its bytes) and
every other declared source derives a cache filename different from that
of u: every declared source yields exactly one block of records (no
exception escapes, the loop continues past the failure), the failing
source contributes exactly one error row carrying the error marker, its
URL and the message, and every other source contributes exactly the
records it would under the network behavior netS in which u does not
fail. -/
theorem runSourcesCached_fault_isolation (hashHex : String → String)
    (netF netS : String → NetResponse) (rest : String → Except String (List Row))
    (u e : String) (urls : List String) (c1 c2 : CacheDir)
    (hfail : netF u = .httpError e ∨
      (∃ chunks, netF u = .stream chunks true ∧
        rest (String.join chunks) = .error e) ∨
      (∃ chunks, netF u = .stream chunks false ∧ e = "transport fault"))
    (hagree : ∀ v, v ≠ u → netF v = netS v)
    (hnc : ∀ v ∈ urls, derivedName hashHex v = derivedName hashHex u → v = u)
    (hcc : ∀ fn, fn ≠ derivedName hashHex u → c1.lookup fn = c2.lookup fn)
    (hu1 : c1.lookup (derivedName hashHex u) = none) :
    (runCachedAux hashHex netF rest urls c1).length = urls.length ∧
    (∀ i : Nat, urls[i]? = some u → (∀ j : Nat, j < i → urls[j]? ≠ some u) →
      (runCachedAux hashHex netF rest urls c1)[i]? = some [errorRow u e]) ∧
    (∀ (i : Nat) (v : String), urls[i]? = some v → v ≠ u →
      (runCachedAux hashHex netF rest urls c1)[i]?
        = (runCachedAux hashHex netS rest urls c2)[i]?) :=
  ⟨runCachedAux_length hashHex netF rest urls c1,
   (runCached_isolation_aux hashHex netF netS rest u e hfail hagree
     urls c1 c2 hnc hcc).1 hu1,
   (runCached_isolation_aux hashHex netF netS rest u e hfail hagree
     urls c1 c2 hnc hcc).2⟩

/-- Witness for the amended fault isolation theorem on two concrete
sources with distinct derived filenames, the first failing with a
non-success response and the second succeeding: the run has one block per
source, the failing source contributes exactly the one error row, and the
block of the second source equals its block in the run where the first
source succeeds. -/
theorem runSourcesCached_fault_isolation_witness :
    (runCachedAux (fun _ => "h")
      (fun v => if v = "http://a.com/r.zip" then .httpError "503"
        else .stream ["X"] true)
      (fun content => .ok [[("value", some content)]])
      ["http://a.com/r.zip", "http://b.com/other.zip"] []).length = 2 ∧
    (runCachedAux (fun _ => "h")
      (fun v => if v = "http://a.com/r.zip" then .httpError "503"
        else .stream ["X"] true)
      (fun content => .ok [[("value", some content)]])
      ["http://a.com/r.zip", "http://b.com/other.zip"] [])[0]?
      = some [errorRow "http://a.com/r.zip" "503"] ∧
    (runCachedAux (fun _ => "h")
      (fun v => if v = "http://a.com/r.zip" then .httpError "503"
        else .stream ["X"] true)
      (fun content => .ok [[("value", some content)]])
      ["http://a.com/r.zip", "http://b.com/other.zip"] [])[1]?
      = (runCachedAux (fun _ => "h")
          (fun v => if v = "http://a.com/r.zip" then .stream ["A"] true
            else .stream ["X"] true)
          (fun content => .ok [[("value", some content)]])
          ["http://a.com/r.zip", "http://b.com/other.zip"] [])[1]? := by
  have h := runSourcesCached_fault_isolation (fun _ => "h")
    (fun v => if v = "http://a.com/r.zip" then .httpError "503"
      else .stream ["X"] true)
    (fun v => if v = "http://a.com/r.zip" then .stream ["A"] true
      else .stream ["X"] true)
    (fun content => .ok [[("value", some content)]])
    "http://a.com/r.zip" "503"
    ["http://a.com/r.zip", "http://b.com/other.zip"] [] []
    (Or.inl (by decide))
    (fun v hv => by simp [hv])
    (by decide)
    (fun fn _ => rfl)
    rfl
  exact ⟨h.1, h.2.1 0 (by decide) (fun j hj => absurd hj (Nat.not_lt_zero j)),
    h.2.2 1 "http://b.com/other.zip" (by decide) (by decide)⟩

theorem candLe_refl (a : Cand) : candLe a a := Or.inr ⟨rfl, le_refl _⟩

/-- C7: with a nonempty plain candidate list, the selection step of
path_to_instance returns a candidate of the list that is minimal for the
order putting paths with a reports component first and shorter path
strings next; and the selection is a function of the candidate list
alone, so resolving the same contents again yields the same path. -/
theorem selectInstance_spec (cands : List Cand) (hne : cands ≠ []) :
    ∃ c, selectInstance cands = some c ∧ c ∈ cands ∧
      (∀ d ∈ cands, candLe c d) ∧
      ∀ cands2, cands2 = cands → selectInstance cands2 = some c := by
  have hperm := List.perm_insertionSort candLe cands
  have hsorted := List.sorted_insertionSort candLe cands
  rcases hs : List.insertionSort candLe cands with _ | ⟨c, rest⟩
  · rw [hs] at hperm
    exact absurd hperm.nil_eq.symm hne
  · rw [hs] at hperm hsorted
    refine ⟨c, ?_, ?_, ?_, ?_⟩
    · simp [selectInstance, hs]
    · exact hperm.mem_iff.mp (List.mem_cons_self c rest)
    · intro d hd
      rcases List.mem_cons.mp (hperm.mem_iff.mpr hd) with h | h
      · subst h; exact candLe_refl d
      · exact List.rel_of_sorted_cons hsorted d h
    · intro cands2 h2
      subst h2
      simp [selectInstance, hs]

/-- Witness for the selection theorem on two concrete candidates, the
second lying under a reports directory. -/
theorem selectInstance_spec_witness :
    ∃ c, selectInstance [⟨["aaa", "x.xhtml"]⟩, ⟨["reports", "y.xhtml"]⟩] = some c ∧
      c ∈ [Cand.mk ["aaa", "x.xhtml"], Cand.mk ["reports", "y.xhtml"]] ∧
      (∀ d ∈ [Cand.mk ["aaa", "x.xhtml"], Cand.mk ["reports", "y.xhtml"]], candLe c d) ∧
      ∀ cands2, cands2 = [Cand.mk ["aaa", "x.xhtml"], Cand.mk ["reports", "y.xhtml"]] →
        selectInstance cands2 = some c :=
  selectInstance_spec [⟨["aaa", "x.xhtml"]⟩, ⟨["reports", "y.xhtml"]⟩] (by decide)

/-- C8: normalization of a matched fact is null tolerant: the fact is
emitted as exactly one normalized row, a missing context leaves the
entity and both period fields null, a missing unit leaves the unit field
null, and a present context whose structured entity access raises with no
flat fallback value still leaves the entity null; no case drops the
fact. -/
theorem extract_facts_null_tolerant (f : XFact) (src : String)
    (wanted : List String) (c : ConceptQName)
    (hc : f.concept = some c) (hk : keepFact wanted c.localName = true) :
    extract_facts [f] src wanted = [normRow src f c.localName] ∧
    (f.context = none → entityOf f.context = none ∧
      f.context.bind FactContext.startDatetime = none ∧
      f.context.bind FactContext.endDatetime = none) ∧
    (f.unit = none → format_unit f.unit = none) ∧
    (∀ cx, f.context = some cx → cx.entityIdentifier = none →
      cx.entityIdentifierValue = none → entityOf f.context = none) := by
  refine ⟨by simp [extract_facts, hc, hk], fun h => by simp [h, entityOf],
    fun h => by simp [h, format_unit],
    fun cx hcx h1 h2 => by simp [hcx, entityOf, h1, h2]⟩

/-- Witness for the null tolerance theorem on a matched fact with no
context and no unit. -/
theorem extract_facts_null_tolerant_witness :
    extract_facts [⟨some ⟨"Revenue"⟩, none, none, "12", none, false⟩] "doc"
        FACT_LOCALNAMES
      = [normRow "doc" ⟨some ⟨"Revenue"⟩, none, none, "12", none, false⟩ "Revenue"] :=
  (extract_facts_null_tolerant ⟨some ⟨"Revenue"⟩, none, none, "12", none, false⟩
    "doc" FACT_LOCALNAMES ⟨"Revenue"⟩ rfl (by decide)).1

/-- C9: a fact carrying no concept contributes nothing to the output of
extract_facts: it yields neither a normalized row nor an error row, and
the facts around it are processed exactly as if it were absent. -/
theorem extract_facts_skips_conceptless (pre suf : List XFact) (f : XFact)
    (src : String) (wanted : List String) (h : f.concept = none) :
    extract_facts (pre ++ f :: suf) src wanted
      = extract_facts (pre ++ suf) src wanted := by
  simp [extract_facts, List.filterMap_append, List.filterMap_cons, h]

/-- Witness for the concept skip theorem: a conceptless fact inserted
before a matching fact leaves the output unchanged. -/
theorem extract_facts_skips_conceptless_witness :
    extract_facts ([] ++ (⟨none, none, none, "7", none, false⟩ : XFact) ::
        [⟨some ⟨"Revenue"⟩, none, none, "5", none, false⟩]) "doc" FACT_LOCALNAMES
      = extract_facts ([] ++ [⟨some ⟨"Revenue"⟩, none, none, "5", none, false⟩])
          "doc" FACT_LOCALNAMES :=
  extract_facts_skips_conceptless []
    [⟨some ⟨"Revenue"⟩, none, none, "5", none, false⟩]
    ⟨none, none, none, "7", none, false⟩ "doc" FACT_LOCALNAMES rfl

/-- C10: the nil flag is never consulted by the filter or the normalizer:
a nil-flagged fact whose concept matches still produces a normalized row,
and that row is identical to the one produced by the same fact with the
nil flag cleared. -/
theorem extract_facts_ignores_nil (f : XFact) (src : String)
    (wanted : List String) (b : Bool) (c : ConceptQName)
    (hc : f.concept = some c) (hk : keepFact wanted c.localName = true) :
    extract_facts [{ f with isNil := b }] src wanted
      = [normRow src { f with isNil := false } c.localName] ∧
    extract_facts [{ f with isNil := false }] src wanted
      = [normRow src { f with isNil := false } c.localName] := by
  constructor <;> simp [extract_facts, hc, hk, normRow]

/-- Witness for the nil flag theorem on a concrete nil-flagged matching
fact. -/
theorem extract_facts_ignores_nil_witness :
    extract_facts [{ (⟨some ⟨"Revenue"⟩, none, none, "9", none, false⟩ : XFact)
        with isNil := true }] "doc" FACT_LOCALNAMES
      = [normRow "doc" { (⟨some ⟨"Revenue"⟩, none, none, "9", none, false⟩ : XFact)
          with isNil := false } "Revenue"] :=
  (extract_facts_ignores_nil ⟨some ⟨"Revenue"⟩, none, none, "9", none, false⟩
    "doc" FACT_LOCALNAMES true ⟨"Revenue"⟩ rfl (by decide)).1

end RunEtl
